import Mathlib

/-!
Shallow embedding of `ua.go` from marselester/useragent (a user-agent string
classifier) together with theorems checking the natural-language specification
against it.  Strings are modelled as Lean `String`s whose character lists are
manipulated directly; the Go code scans bytes, which coincides with characters
on the ASCII inputs the parser is designed around.
-/

namespace useragent

/-- `Str` abbreviates `String`, so that record fields declared after the
`UserAgent.String` field (mirroring the Go struct's field named `String`)
can still refer to the string type. -/
abbrev Str := String

/-- Characters treated as white space by Go's `bytes.TrimSpace` /
`strings.TrimSpace` (ASCII white space plus U+0085 and U+00A0). -/
def isSpaceGo (c : Char) : Bool :=
  c = ' ' || c = '\t' || c = '\n' || c.toNat = 11 || c.toNat = 12 || c = '\r' ||
  c.toNat = 133 || c.toNat = 160

/-- `isPrefixOfL p l` : `p` is a prefix of `l` (Go `strings.HasPrefix l p`). -/
def isPrefixOfL : List Char → List Char → Bool
  | [], _ => true
  | _ :: _, [] => false
  | a :: as, b :: bs => a = b && isPrefixOfL as bs

/-- `isSuffixOfL p l` : `p` is a suffix of `l` (Go `bytes.HasSuffix l p`). -/
def isSuffixOfL (p l : List Char) : Bool :=
  isPrefixOfL p.reverse l.reverse

/-- `containsL l sub` : `sub` occurs inside `l` (Go `strings.Contains l sub`). -/
def containsL : List Char → List Char → Bool
  | [], sub => isPrefixOfL sub []
  | c :: rest, sub => isPrefixOfL sub (c :: rest) || containsL rest sub

/-- Go `bytes.TrimSpace`: drop white space from both ends. -/
def trimSpaceL (l : List Char) : List Char :=
  ((l.dropWhile isSpaceGo).reverse.dropWhile isSpaceGo).reverse

/-- Go `bytes.TrimPrefix l p`. -/
def trimPfxL (l p : List Char) : List Char :=
  if isPrefixOfL p l then l.drop p.length else l

/-- Go `strings.TrimSuffix l p`. -/
def trimSfxL (l p : List Char) : List Char :=
  if isSuffixOfL p l then l.take (l.length - p.length) else l

/-- ASCII lower-casing of one character, as Go `strings.ToLower` acts on the
ASCII range (the inputs of interest are ASCII). -/
def lowerChar (c : Char) : Char :=
  if 65 ≤ c.toNat && c.toNat ≤ 90 then Char.ofNat (c.toNat + 32) else c

/-- Go `strings.ToLower` on the ASCII range. -/
def toLowerL (l : List Char) : List Char := l.map lowerChar

/-- Index of the last `' '` in the list, Go `bytes.LastIndex s []byte(" ")`
(`none` for Go's `-1`). -/
def lastSpaceIdx : List Char → Option Nat
  | [] => none
  | c :: rest =>
    match lastSpaceIdx rest with
    | some i => some (i + 1)
    | none => if c = ' ' then some 0 else none

/-- `checkVer` from ua.go: split a flushed key at its last space into
key/value for a fixed set of OS-version-bearing labels; for the ChromeOS
prefixes it additionally cuts at the space before the architecture word,
returning `s[:j]` and `s[j+1:i]`. -/
def checkVer (s : List Char) : List Char × List Char :=
  match lastSpaceIdx s with
  | none => (s, [])
  | some i =>
    if s.take i == "Linux".data || s.take i == "Windows NT".data ||
        s.take i == "Windows Phone OS".data || s.take i == "MSIE".data ||
        s.take i == "Android".data then
      (s.take i, s.drop (i + 1))
    else if s.take i == "CrOS x86_64".data || s.take i == "CrOS aarch64".data ||
        s.take i == "CrOS armv7l".data then
      match lastSpaceIdx (s.take i) with
      | some j => (s.take j, (s.drop (j + 1)).take (i - (j + 1)))
      | none => (s, [])
    else (s, [])

/-- `ignore` from ua.go: filler tokens that are discarded at flush time. -/
def ignore (s : List Char) : Bool :=
  s == "KHTML, like Gecko".data || s == "U".data || s == "compatible".data ||
  s == "Mozilla".data || s == "WOW64".data || s == "en".data ||
  s == "en-us".data || s == "en-gb".data || s == "ru-ru".data ||
  s == "Browser".data

/-- One key/value token (Go `property`). A missing value is the empty
string, as in the Go code where a `nil` value byte-slice stringifies to "". -/
structure property where
  Key : Str
  Value : Str
deriving DecidableEq

/-- Tokenizer state: the key buffer `buff`, the value buffer `val`, the
slash/URL modes, the parenthesis/bracket flags and the emitted tokens. -/
structure ScanState where
  buff : List Char
  val : List Char
  slash : Bool
  isURL : Bool
  parOpen : Bool
  braOpen : Bool
  tokens : List property

/-- The `addToken` closure of `Parser.parse`: flush the current buffers as a
token (unless empty or ignorable), resetting buffers and slash/URL modes. -/
def addToken (st : ScanState) : ScanState :=
  let tokens :=
    if st.buff.isEmpty then st.tokens
    else
      let s := trimSpaceL st.buff
      if ignore s then st.tokens
      else
        let s := if st.isURL then trimPfxL s "+".data else s
        if st.val.isEmpty then
          let kv := checkVer s
          st.tokens ++ [⟨String.mk kv.1, String.mk kv.2⟩]
        else
          st.tokens ++ [⟨String.mk s, String.mk (trimSpaceL st.val)⟩]
  { buff := [], val := [], slash := false, isURL := false, parOpen := st.parOpen, braOpen := st.braOpen, tokens := tokens }

/-- The character-dispatch loop of `Parser.parse`.  The remaining input is
the list argument; one-character lookahead (`userAgent[i+1]` in Go) is the
head of the tail. -/
def scan : List Char → ScanState → ScanState
  | [], st => addToken st
  | c :: rest, st =>
    if c = ')' then
      scan rest { addToken st with parOpen := false }
    else if c = ';' then
      scan rest (addToken st)
    else if c = '(' then
      scan rest { addToken st with parOpen := true }
    else if c = '[' then
      scan rest { addToken st with braOpen := true }
    else if c = ']' then
      scan rest { addToken st with braOpen := false }
    else if c = ':' then
      if isSuffixOfL "http".data st.buff || isSuffixOfL "https".data st.buff then
        scan rest { st with buff := st.buff ++ [c] }
      else
        match rest with
        | d :: _ =>
          if d ≠ ' ' then scan rest { st with buff := st.buff ++ [' '] }
          else scan rest st
        | [] => scan rest st
    else if st.slash ∧ c = ' ' then
      scan rest (addToken st)
    else if st.slash then
      scan rest { st with val := st.val ++ [c] }
    else if c = '/' ∧ ¬st.isURL then
      match rest with
      | d :: _ =>
        if d = '/' ∧ (isSuffixOfL "http:".data st.buff ||
            isSuffixOfL "https:".data st.buff) then
          scan rest { st with buff := st.buff ++ [c], isURL := true }
        else if ignore st.buff then
          scan rest { st with buff := [] }
        else
          scan rest { st with slash := true }
      | [] =>
        if ignore st.buff then scan rest { st with buff := [] }
        else scan rest { st with slash := true }
    else
      scan rest { st with buff := st.buff ++ [c] }

/-- `Parser.parse` from ua.go: tokenize a user-agent string. -/
def parse (userAgent : Str) : List property :=
  (scan userAgent.data ⟨[], [], false, false, false, false, []⟩).tokens

/-- `properties.get`: value of the first token with the given key, "" if none. -/
def get : List property → Str → Str
  | [], _ => ""
  | p :: rest, key => if p.Key = key then p.Value else get rest key

def getIndexValueAux : List property → Str → Nat → Int × Str
  | [], _, _ => (-1, "")
  | p :: rest, key, n =>
    if p.Key = key then ((n : Int), p.Value) else getIndexValueAux rest key (n + 1)

/-- `properties.getIndexValue`: index and value of the first token with the
given key, `(-1, "")` if none. -/
def getIndexValue (l : List property) (key : Str) : Int × Str :=
  getIndexValueAux l key 0

/-- `properties.exists`: is there a token with this key? (`exists` is a Go
method name; `existsKey` here since `exists` clashes with a Lean tactic). -/
def existsKey : List property → Str → Bool
  | [], _ => false
  | p :: rest, key => p.Key == key || existsKey rest key

/-- `properties.existsAny`. -/
def existsAny (l : List property) (keys : List Str) : Bool :=
  keys.any (fun k => existsKey l k)

/-- `properties.startsWith`: some key has the given prefix. -/
def startsWithKey (l : List property) (v : Str) : Bool :=
  l.any (fun p => isPrefixOfL v.data p.Key.data)

/-- Character class of the regular expression `[_\d\.]+` (`rxMacOSVer`). -/
def isVerChar (c : Char) : Bool :=
  c = '_' || c.isDigit || c = '.'

/-- Leftmost maximal run of version characters, i.e. `rxMacOSVer.FindString`. -/
def firstRun : List Char → List Char
  | [] => []
  | c :: rest =>
    if isVerChar c then c :: rest.takeWhile isVerChar else firstRun rest

/-- `findVersion` from ua.go: leftmost `[_\d\.]+` run with `_` → `.`. -/
def findVersion (s : Str) : Str :=
  String.mk ((firstRun s.data).map (fun c => if c = '_' then '.' else c))

/-- `properties.findMacOSVersion`. -/
def findMacOSVersion : List property → Str
  | [] => ""
  | t :: rest =>
    if containsL t.Key.data "OS".data then
      if findVersion t.Value ≠ "" then findVersion t.Value
      else if findVersion t.Key ≠ "" then findVersion t.Key
      else findMacOSVersion rest
    else findMacOSVersion rest

/-- `properties.findInstagramVersion`. -/
def findInstagramVersion : List property → Str
  | [] => ""
  | t :: rest =>
    if isPrefixOfL "Instagram".data t.Key.data then
      if findVersion t.Value ≠ "" then findVersion t.Value
      else if findVersion t.Key ≠ "" then findVersion t.Key
      else findInstagramVersion rest
    else findInstagramVersion rest

/-- Keys skipped by `properties.findBestMatch`. -/
def bestSkip : List Str :=
  ["Chrome", "Firefox", "Safari", "Version", "Mobile", "Mobile Safari",
   "Mozilla", "AppleWebKit", "Windows NT", "Windows Phone OS", "Android",
   "Macintosh", "Linux", "GSA", "CrOS", "Tablet"]

/-- Does the key start with an ASCII digit? -/
def startsDigit (s : Str) : Bool :=
  match s.data with
  | [] => false
  | c :: _ => 48 ≤ c.toNat && c.toNat ≤ 57

/-- One cycle of `properties.findBestMatch`: first non-skipped,
non-digit-leading key; when `requireVal` is true only keys with a value. -/
def bestMatchPass : List property → Bool → Str
  | [], _ => ""
  | p :: rest, requireVal =>
    if p.Key ∈ bestSkip then bestMatchPass rest requireVal
    else if startsDigit p.Key then bestMatchPass rest requireVal
    else if requireVal then
      if p.Value ≠ "" then p.Key else bestMatchPass rest requireVal
    else p.Key

/-- `properties.findBestMatch`: with `withVerOnly` only the value-bearing
cycle runs; otherwise a second cycle accepts any key. -/
def findBestMatch (l : List property) (withVerOnly : Bool) : Str :=
  if withVerOnly then bestMatchPass l true
  else if bestMatchPass l true ≠ "" then bestMatchPass l true
  else bestMatchPass l false

/-- Keys `properties.findAndroidDevice` refuses as device names. -/
def devSkip : List Str :=
  ["Chrome", "Firefox", "Safari", "Opera Mini", "Presto", "Version", "Mobile",
   "Mobile Safari", "Mozilla", "AppleWebKit", "Windows NT", "Windows Phone OS",
   "Android", "Macintosh", "Linux", "CrOS"]

/-- `properties.findAndroidDevice`: inspect the token after `startIndex`
(the Go loop body runs exactly once); skip locale-looking and structural
keys; a key containing "tablet" is rewritten to a "Tablet" marker, any other
match is removed from the store; the returned name drops a trailing "Build".
Returns the device name together with the (possibly mutated) store. -/
def findAndroidDevice (l : List property) (startIndex : Int) : Str × List property :=
  if startIndex + 1 < (l.length : Int) then
    let idx := (startIndex + 1).toNat
    let dev := (l.getD idx ⟨"", ""⟩).Key
    if dev.data.length = 2 ∨ (dev.data.length = 5 ∧ dev.data.getD 2 ' ' = '-') then
      ("", l)
    else if dev ∈ devSkip then
      ("", l)
    else if containsL (toLowerL dev.data) "tablet".data then
      (String.mk (trimSpaceL (trimSfxL dev.data "Build".data)),
       l.set idx ⟨"Tablet", (l.getD idx ⟨"", ""⟩).Value⟩)
    else
      (String.mk (trimSpaceL (trimSfxL dev.data "Build".data)), l.eraseIdx idx)
  else ("", l)

/-- The output record (Go `UserAgent`). The Go `VersionNo` type is not part
of ua.go; following the spec's data model (§3, §4.5) a numeric version is an
ordered list of non-negative integers. -/
structure UserAgent where
  VersionNo : List Nat
  OSVersionNo : List Nat
  URL : Str
  String : Str
  Name : Str
  Version : Str
  OS : Str
  OSVersion : Str
  Device : Str
  Mobile : Bool
  Tablet : Bool
  Desktop : Bool
  Bot : Bool
deriving DecidableEq

/-- The zero Go `UserAgent` value (all fields empty/false/zero). -/
def emptyUA : UserAgent :=
  ⟨[], [], "", "", "", "", "", "", "", false, false, false, false⟩

def Windows : Str := "Windows"
def WindowsPhone : Str := "Windows Phone"
def Android : Str := "Android"
def MacOS : Str := "macOS"
def IOS : Str := "iOS"
def Linux : Str := "Linux"
def FreeBSD : Str := "FreeBSD"
def ChromeOS : Str := "ChromeOS"
def BlackBerry : Str := "BlackBerry"
def Opera : Str := "Opera"
def OperaMini : Str := "Opera Mini"
def OperaTouch : Str := "Opera Touch"
def Chrome : Str := "Chrome"
def HeadlessChrome : Str := "Headless Chrome"
def Firefox : Str := "Firefox"
def InternetExplorer : Str := "Internet Explorer"
def Safari : Str := "Safari"
def Edge : Str := "Edge"
def Vivaldi : Str := "Vivaldi"
def GoogleAdsBot : Str := "Google Ads Bot"
def Googlebot : Str := "Googlebot"
def Twitterbot : Str := "Twitterbot"
def FacebookExternalHit : Str := "facebookexternalhit"
def Applebot : Str := "Applebot"
def Bingbot : Str := "Bingbot"
def FacebookApp : Str := "Facebook App"
def InstagramApp : Str := "Instagram App"
def TiktokApp : Str := "TikTok App"

/-- Modelled from the spec: `IsAndroid` is declared outside ua.go (only its
call sites are in src).  Per §4.4 ("If OS is Android, force mobile=true" and
"mobile = OS-is-Android-or-iOS") it reports whether the classified OS is
Android. -/
def UserAgent.IsAndroid (ua : UserAgent) : Bool := ua.OS == Android

/-- Modelled from the spec: `IsIOS` is declared outside ua.go; per §4.4 it
reports whether the classified OS is iOS. -/
def UserAgent.IsIOS (ua : UserAgent) : Bool := ua.OS == IOS

def splitOnDot : List Char → List (List Char)
  | [] => [[]]
  | c :: rest =>
    match splitOnDot rest with
    | [] => [[]]
    | g :: gs => if c = '.' then [] :: g :: gs else (c :: g) :: gs

def digitsToNat (l : List Char) : Nat :=
  l.foldl (fun acc c => acc * 10 + (c.toNat - 48)) 0

/-- Modelled from the spec: the Version Parser (`parseVersion`, §4.5) is not
part of ua.go.  "Given a dotted/underscored version string, produce an
ordered list of integer components; non-numeric or empty input yields an
empty component list (no error raised)"; §8 fixes `"14.2.1" ↦ [14, 2, 1]`
and `"" ↦ []`. -/
def parseVersion (s : Str) : List Nat :=
  if s.data.isEmpty then []
  else
    let comps := splitOnDot s.data
    if comps.all (fun c => !c.isEmpty && c.all Char.isDigit) then
      comps.map digitsToNat
    else []

/-- The URL-extraction loop at the top of `Parser.Parse`: the first token
whose key starts with "http://" or "https://" becomes the URL and is removed
from the store. -/
def extractURL : List property → Str × List property
  | [] => ("", [])
  | p :: rest =>
    if isPrefixOfL "http://".data p.Key.data ||
        isPrefixOfL "https://".data p.Key.data then
      (p.Key, rest)
    else
      ((extractURL rest).1, p :: (extractURL rest).2)

/-- The OS-lookup switch of `Parser.Parse` (first match wins).  The Android
branch consults `findAndroidDevice`, which may mutate the token store, so the
store is returned alongside the classification. -/
def osStep (t : List property) (ua : UserAgent) : UserAgent × List property :=
  if existsKey t "Android" then
    ({ ua with OS := Android, OSVersion := (getIndexValue t Android).2, Tablet := containsL (toLowerL ua.String.data) "tablet".data, Device := (findAndroidDevice t (getIndexValue t Android).1).1 },
      (findAndroidDevice t (getIndexValue t Android).1).2)
  else if existsKey t "iPhone" then
    ({ ua with OS := IOS, OSVersion := findMacOSVersion t, Device := "iPhone", Mobile := true }, t)
  else if existsKey t "iPad" then
    ({ ua with OS := IOS, OSVersion := findMacOSVersion t, Device := "iPad", Tablet := true }, t)
  else if existsKey t "Windows NT" then
    ({ ua with OS := Windows, OSVersion := get t "Windows NT", Desktop := true }, t)
  else if existsKey t "Windows Phone OS" then
    ({ ua with OS := WindowsPhone, OSVersion := get t "Windows Phone OS", Mobile := true }, t)
  else if existsKey t "Macintosh" then
    ({ ua with OS := MacOS, OSVersion := findMacOSVersion t, Desktop := true }, t)
  else if existsKey t "Linux" then
    ({ ua with OS := Linux, OSVersion := get t Linux, Desktop := true }, t)
  else if existsKey t "FreeBSD" then
    ({ ua with OS := FreeBSD, OSVersion := get t FreeBSD, Desktop := true }, t)
  else if existsKey t "CrOS" then
    ({ ua with OS := ChromeOS, OSVersion := get t "CrOS", Desktop := true }, t)
  else if existsKey t "BlackBerry" then
    ({ ua with OS := BlackBerry, OSVersion := get t "BlackBerry", Mobile := true }, t)
  else (ua, t)

/-- The browser/bot switch of `Parser.Parse` (first match wins; the combined
Chrome+Safari case falls through to the generic Chrome body when the
best-match search is empty, which is inlined here).  Go statement sequences
that conditionally assign fields are expressed as single record updates. -/
def agentStep (t : List property) (ua : UserAgent) : UserAgent :=
  if existsKey t "Googlebot" then
    { ua with Name := Googlebot, Version := get t Googlebot, Bot := true, Mobile := existsAny t ["Mobile", "Mobile Safari"] }
  else if existsAny t ["GoogleProber", "GoogleProducer"] then
    if findBestMatch t false != "" then
      { ua with Name := findBestMatch t false, Bot := true }
    else
      { ua with Bot := true }
  else if existsKey t "Applebot" then
    { ua with Name := Applebot, Version := get t Applebot, Bot := true, Mobile := existsAny t ["Mobile", "Mobile Safari"], OS := "" }
  else if get t "Opera Mini" != "" then
    { ua with Name := OperaMini, Version := get t OperaMini, Mobile := true }
  else if get t "OPR" != "" then
    { ua with Name := Opera, Version := get t "OPR", Mobile := existsAny t ["Mobile", "Mobile Safari"] }
  else if get t "OPT" != "" then
    { ua with Name := OperaTouch, Version := get t "OPT", Mobile := existsAny t ["Mobile", "Mobile Safari"] }
  else if get t "OPiOS" != "" then
    { ua with Name := Opera, Version := get t "OPiOS", Mobile := existsAny t ["Mobile", "Mobile Safari"] }
  else if get t "CriOS" != "" then
    { ua with Name := Chrome, Version := get t "CriOS", Mobile := existsAny t ["Mobile", "Mobile Safari"] }
  else if get t "FxiOS" != "" then
    { ua with Name := Firefox, Version := get t "FxiOS", Mobile := existsAny t ["Mobile", "Mobile Safari"] }
  else if get t "Firefox" != "" then
    { ua with Name := Firefox, Version := get t Firefox, Mobile := existsKey t "Mobile", Tablet := existsKey t "Tablet" }
  else if get t "Vivaldi" != "" then
    { ua with Name := Vivaldi, Version := get t Vivaldi }
  else if existsKey t "MSIE" then
    { ua with Name := InternetExplorer, Version := get t "MSIE" }
  else if get t "EdgiOS" != "" then
    { ua with Name := Edge, Version := get t "EdgiOS", Mobile := existsAny t ["Mobile", "Mobile Safari"] }
  else if get t "Edge" != "" then
    { ua with Name := Edge, Version := get t "Edge", Mobile := existsAny t ["Mobile", "Mobile Safari"] }
  else if get t "Edg" != "" then
    { ua with Name := Edge, Version := get t "Edg", Mobile := existsAny t ["Mobile", "Mobile Safari"] }
  else if get t "EdgA" != "" then
    { ua with Name := Edge, Version := get t "EdgA", Mobile := existsAny t ["Mobile", "Mobile Safari"] }
  else if get t "bingbot" != "" then
    { ua with Name := Bingbot, Version := get t "bingbot", Mobile := existsAny t ["Mobile", "Mobile Safari"] }
  else if get t "YandexBot" != "" then
    { ua with Name := "YandexBot", Version := get t "YandexBot", Mobile := existsAny t ["Mobile", "Mobile Safari"] }
  else if get t "SamsungBrowser" != "" then
    { ua with Name := "Samsung Browser", Version := get t "SamsungBrowser", Mobile := existsAny t ["Mobile", "Mobile Safari"] }
  else if get t "HeadlessChrome" != "" then
    { ua with Name := HeadlessChrome, Version := get t "HeadlessChrome", Mobile := existsAny t ["Mobile", "Mobile Safari"], Bot := true }
  else if existsAny t ["AdsBot-Google-Mobile", "Mediapartners-Google", "AdsBot-Google"] then
    { ua with Name := GoogleAdsBot, Bot := true, Mobile := ua.IsAndroid || ua.IsIOS }
  else if existsKey t "Yahoo Ad monitoring" then
    { ua with Name := "Yahoo Ad monitoring", Bot := true, Mobile := ua.IsAndroid || ua.IsIOS }
  else if existsKey t "XiaoMi" then
    if isPrefixOfL "MiuiBrowser".data (get t "XiaoMi").data then
      { ua with Name := "Miui Browser", Version := String.mk (trimPfxL (get t "XiaoMi").data "MiuiBrowser/".data), Mobile := true }
    else ua
  else if existsKey t "FBAN" then
    { ua with Name := FacebookApp, Version := get t "FBAN" }
  else if existsKey t "FB_IAB" then
    { ua with Name := FacebookApp, Version := get t "FBAV" }
  else if startsWithKey t "Instagram" then
    { ua with Name := InstagramApp, Version := findInstagramVersion t }
  else if existsKey t "BytedanceWebview" then
    { ua with Name := TiktokApp, Version := get t "app_version" }
  else if get t "HuaweiBrowser" != "" then
    { ua with Name := "Huawei Browser", Version := get t "HuaweiBrowser", Mobile := existsAny t ["Mobile", "Mobile Safari"] }
  else if existsKey t "BlackBerry" then
    { ua with Name := "BlackBerry", Version := get t "Version" }
  else if existsKey t "NetFront" then
    { ua with Name := "NetFront", Version := get t "NetFront", Mobile := true }
  else if existsKey t Chrome && existsKey t Safari then
    if findBestMatch t true != "" then
      { ua with Name := findBestMatch t true, Version := get t (findBestMatch t true) }
    else
      { ua with Name := Chrome, Version := get t "Chrome", Mobile := existsAny t ["Mobile", "Mobile Safari"] }
  else if existsKey t "Chrome" then
    { ua with Name := Chrome, Version := get t "Chrome", Mobile := existsAny t ["Mobile", "Mobile Safari"] }
  else if existsKey t "Brave Chrome" then
    { ua with Name := Chrome, Version := get t "Brave Chrome", Mobile := existsAny t ["Mobile", "Mobile Safari"] }
  else if existsKey t "Safari" then
    { ua with Name := Safari, Version := if get t "Version" != "" then get t "Version" else get t "Safari", Mobile := existsAny t ["Mobile", "Mobile Safari"] }
  else if ua.OS == Android && get t "Version" != "" then
    { ua with Name := "Android browser", Version := get t "Version", Mobile := true }
  else if findBestMatch t false != "" then
    { ua with Name := findBestMatch t false, Version := get t (findBestMatch t false), Bot := containsL (toLowerL (findBestMatch t false).data) "bot".data, Mobile := ua.Mobile || existsAny t ["Mobile", "Mobile Safari"] }
  else
    { ua with Name := ua.String, Bot := containsL (toLowerL ua.String.data) "bot".data, Mobile := ua.Mobile || existsAny t ["Mobile", "Mobile Safari"] }

/-- Post-pass 1: "if ua.IsAndroid() { ua.Mobile = true }". -/
def fixMobileAndroid (ua : UserAgent) : UserAgent :=
  if ua.IsAndroid then { ua with Mobile := true } else ua

/-- Post-pass 2: "if ua.Tablet { ua.Mobile = false }". -/
def fixTabletMobile (ua : UserAgent) : UserAgent :=
  if ua.Tablet then { ua with Mobile := false } else ua

/-- Post-pass 3: "if !ua.Bot { ua.Bot = ua.URL != \"\" }". -/
def fixBotURL (ua : UserAgent) : UserAgent :=
  if ua.Bot then ua else { ua with Bot := ua.URL != "" }

/-- Post-pass 4: Twitterbot / facebookexternalhit name check. -/
def fixBotName (ua : UserAgent) : UserAgent :=
  if ua.Bot then ua
  else if ua.Name = Twitterbot ∨ ua.Name = FacebookExternalHit then
    { ua with Bot := true }
  else ua

/-- The two `parseVersion` calls at the end of `Parser.Parse`. -/
def setVersions (ua : UserAgent) : UserAgent :=
  { ua with VersionNo := parseVersion ua.Version, OSVersionNo := parseVersion ua.OSVersion }

/-- Token store of one parse after URL extraction, with the extracted URL. -/
def urlSplit (s : Str) : Str × List property :=
  extractURL (parse s)

/-- Result and token store after the OS-lookup stage of `Parser.Parse`. -/
def osResult (s : Str) : UserAgent × List property :=
  osStep (urlSplit s).2 { emptyUA with String := s, URL := (urlSplit s).1 }

/-- Result after the browser/bot stage of `Parser.Parse` (before the
post-pass corrections). -/
def preResult (s : Str) : UserAgent :=
  agentStep (osResult s).2 (osResult s).1

/-- `Parser.Parse` from ua.go: tokenize, extract a URL, classify OS then
browser/bot, apply the post-pass corrections and the version parses. -/
def Parse (s : Str) : UserAgent :=
  setVersions (fixBotName (fixBotURL (fixTabletMobile (fixMobileAndroid (preResult s)))))

/-- Guard of the Applebot rule of the browser/bot switch: it fires when the
two rules before it do not match and an "Applebot" token is present. -/
def applebotBranch (t : List property) : Bool :=
  !existsKey t "Googlebot" && !existsAny t ["GoogleProber", "GoogleProducer"] &&
  existsKey t "Applebot"

/-- Disjunction of the guards of every browser/bot rule that precedes the
combined Chrome+Safari rule, in source order. -/
def beforeChromeSafari (t : List property) : Bool :=
  existsKey t "Googlebot" || existsAny t ["GoogleProber", "GoogleProducer"] ||
  existsKey t "Applebot" || get t "Opera Mini" != "" || get t "OPR" != "" ||
  get t "OPT" != "" || get t "OPiOS" != "" || get t "CriOS" != "" ||
  get t "FxiOS" != "" || get t "Firefox" != "" || get t "Vivaldi" != "" ||
  existsKey t "MSIE" || get t "EdgiOS" != "" || get t "Edge" != "" ||
  get t "Edg" != "" || get t "EdgA" != "" || get t "bingbot" != "" ||
  get t "YandexBot" != "" || get t "SamsungBrowser" != "" ||
  get t "HeadlessChrome" != "" ||
  existsAny t ["AdsBot-Google-Mobile", "Mediapartners-Google", "AdsBot-Google"] ||
  existsKey t "Yahoo Ad monitoring" || existsKey t "XiaoMi" ||
  existsKey t "FBAN" || existsKey t "FB_IAB" || startsWithKey t "Instagram" ||
  existsKey t "BytedanceWebview" || get t "HuaweiBrowser" != "" ||
  existsKey t "BlackBerry" || existsKey t "NetFront"

/-! Normal forms of the four post-pass corrections, used to reason about the
final fields of `Parse` without case analysis at every use site. -/

lemma fixMobileAndroid_eq (u : UserAgent) :
    fixMobileAndroid u = { u with Mobile := u.IsAndroid || u.Mobile } := by
  obtain ⟨v, ov, url, s, n, ver, os, osv, dev, mob, tab, desk, bot⟩ := u
  unfold fixMobileAndroid
  split_ifs with h <;> simp_all

lemma fixTabletMobile_eq (u : UserAgent) :
    fixTabletMobile u = { u with Mobile := !u.Tablet && u.Mobile } := by
  obtain ⟨v, ov, url, s, n, ver, os, osv, dev, mob, tab, desk, bot⟩ := u
  cases tab <;> simp [fixTabletMobile]

lemma fixBotURL_eq (u : UserAgent) :
    fixBotURL u = { u with Bot := u.Bot || u.URL != "" } := by
  obtain ⟨v, ov, url, s, n, ver, os, osv, dev, mob, tab, desk, bot⟩ := u
  cases bot <;> simp [fixBotURL]

lemma fixBotName_eq (u : UserAgent) :
    fixBotName u =
      { u with Bot := u.Bot || (u.Name == Twitterbot || u.Name == FacebookExternalHit) } := by
  obtain ⟨v, ov, url, s, n, ver, os, osv, dev, mob, tab, desk, bot⟩ := u
  cases bot
  · by_cases h : n = Twitterbot ∨ n = FacebookExternalHit
    · rcases h with h | h <;> simp [fixBotName, h]
    · push_neg at h
      have hT : (n == Twitterbot) = false := beq_eq_false_iff_ne.mpr h.1
      have hF : (n == FacebookExternalHit) = false := beq_eq_false_iff_ne.mpr h.2
      simp [fixBotName, h.1, h.2, hT, hF]
  · simp [fixBotName]

set_option maxHeartbeats 1600000 in
/-- The browser/bot switch never writes `OSVersion`. -/
lemma agentStep_OSVersion (t : List property) (ua : UserAgent) :
    (agentStep t ua).OSVersion = ua.OSVersion := by
  unfold agentStep
  simp only [apply_ite UserAgent.OSVersion, ite_self]

set_option maxHeartbeats 1600000 in
/-- The browser/bot switch clears `OS` exactly when the Applebot rule fires
and otherwise leaves it unchanged. -/
lemma agentStep_OS (t : List property) (ua : UserAgent) :
    (agentStep t ua).OS = if applebotBranch t then "" else ua.OS := by
  unfold agentStep applebotBranch
  simp only [apply_ite UserAgent.OS, ite_self]
  cases h1 : existsKey t "Googlebot" <;>
    cases h2 : existsAny t ["GoogleProber", "GoogleProducer"] <;>
    cases h3 : existsKey t "Applebot" <;>
    simp [h1, h2, h3]

/-! Concrete inputs used by the example claims and by witnesses. -/

def chromeInput : Str :=
  "Mozilla/5.0 (Windows NT 10.0; Win64; x64) AppleWebKit/537.36 (KHTML, like Gecko) Chrome/91.0.4472.124 Safari/537.36"

def googlebotInput : Str :=
  "Mozilla/5.0 (compatible; Googlebot/2.1; +http://www.google.com/bot.html)"

def applebotInput : Str := "Mac OS X 10_15_7; Macintosh; Applebot/1.0"

/-- The token store `parse` produces for `chromeInput`. -/
def chromeTokens : List property :=
  [⟨"5.0", ""⟩, ⟨"Windows NT", "10.0"⟩, ⟨"Win64", ""⟩, ⟨"x64", ""⟩, ⟨"AppleWebKit", "537.36"⟩, ⟨"Chrome", "91.0.4472.124"⟩, ⟨"Safari", "537.36"⟩]

/-- An Android token followed by a device-name token with a "Build" suffix. -/
def androidTokens : List property :=
  [⟨"Android", "8.0.0"⟩, ⟨"SM-G960F Build", "R16NW"⟩]

/-- C1: for every input string, the classification returned by `Parse` never
has `Tablet = true` and `Mobile = true` simultaneously: the post-pass forces
`Mobile := false` whenever `Tablet` is true. -/
theorem claimC1 (s : Str) (h : (Parse s).Tablet = true) : (Parse s).Mobile = false := by
  unfold Parse at h ⊢
  rw [fixMobileAndroid_eq, fixTabletMobile_eq, fixBotURL_eq, fixBotName_eq] at h ⊢
  simp [setVersions] at h ⊢
  simp [h]

/-- Witness for C1: a concrete input on which `Tablet` comes out true. -/
theorem claimC1_witness :
    (Parse "Android; tablet").Tablet = true ∧ (Parse "Android; tablet").Mobile = false :=
  ⟨by decide, claimC1 "Android; tablet" (by decide)⟩

/-- C2: `Parse` is total over every input by construction of this embedding
(it is a Lean function into `UserAgent`, with no error outcome), and on the
empty input it returns the all-empty/false record, whose `Name` is `""`. -/
theorem claimC2 : Parse "" = emptyUA := by decide

set_option maxRecDepth 40000 in
/-- C3: the classification of the Windows 10 / Chrome 91 example string. -/
theorem claimC3 :
    Parse chromeInput =
      { VersionNo := [91, 0, 4472, 124], OSVersionNo := [10, 0], URL := "", String := chromeInput, Name := "Chrome", Version := "91.0.4472.124", OS := "Windows", OSVersion := "10.0", Device := "", Mobile := false, Tablet := false, Desktop := true, Bot := false } := by
  decide

/-- C4: when no rule before the combined Chrome+Safari case matches and both
a "Chrome" and a "Safari" token are present, the result is the best generic
match restricted to value-bearing tokens when that search succeeds, and the
generic Chrome classification (the chain's single fallthrough) otherwise. -/
theorem claimC4 (t : List property) (ua : UserAgent)
    (h : beforeChromeSafari t = false)
    (hc : existsKey t Chrome = true) (hs : existsKey t Safari = true) :
    agentStep t ua =
      if findBestMatch t true != "" then
        { ua with Name := findBestMatch t true, Version := get t (findBestMatch t true) }
      else
        { ua with Name := Chrome, Version := get t "Chrome", Mobile := existsAny t ["Mobile", "Mobile Safari"] } := by
  simp only [beforeChromeSafari, Bool.or_eq_false_iff, and_assoc] at h
  obtain ⟨h1, h2, h3, h4, h5, h6, h7, h8, h9, h10, h11, h12, h13, h14, h15, h16, h17, h18, h19, h20, h21, h22, h23, h24, h25, h26, h27, h28, h29, h30⟩ := h
  unfold agentStep
  simp [h1, h2, h3, h4, h5, h6, h7, h8, h9, h10, h11, h12, h13, h14, h15, h16, h17, h18, h19, h20, h21, h22, h23, h24, h25, h26, h27, h28, h29, h30, hc, hs]

/-- Witness for C4: the Chrome-example token store, where the value-bearing
best-match search is empty and the fallthrough produces the Chrome result. -/
theorem claimC4_witness :
    beforeChromeSafari chromeTokens = false ∧
    agentStep chromeTokens emptyUA =
      { emptyUA with Name := "Chrome", Version := "91.0.4472.124" } := by
  have h := claimC4 chromeTokens emptyUA (by decide) (by decide) (by decide)
  exact ⟨by decide, h.trans (by decide)⟩

/-- C5: the code disagrees with the claim here.  For a flushed key
"CrOS x86_64 14541.0.0", `checkVer` returns `s[j+1:i]` — the architecture
"x86_64" — as the value, not the trailing version "14541.0.0" (the claim and
the commented-out line `//v = s[i+1:]` in ua.go describe the latter), so the
ChromeOS `OSVersion` becomes the architecture string. -/
theorem claimC5_eval :
    checkVer "CrOS x86_64 14541.0.0".data = ("CrOS".data, "x86_64".data) ∧
    (Parse "X11; CrOS x86_64 14541.0.0").OS = "ChromeOS" ∧
    (Parse "X11; CrOS x86_64 14541.0.0").OSVersion = "x86_64" := by
  decide

/-- C6: for every input, the final `OS` is what the OS-lookup stage assigned
unless the Applebot rule of the browser/bot switch fires, in which case it
is the empty string — no other agent rule changes `OS`. -/
theorem claimC6 (s : Str) :
    (Parse s).OS = if applebotBranch (osResult s).2 then "" else (osResult s).1.OS := by
  unfold Parse preResult
  rw [fixMobileAndroid_eq, fixTabletMobile_eq, fixBotURL_eq, fixBotName_eq]
  simp only [setVersions]
  simpa using agentStep_OS (osResult s).2 (osResult s).1

set_option maxRecDepth 40000 in
/-- C7: the classification of the Googlebot example string, including the
URL extracted from the store with the leading "+" stripped. -/
theorem claimC7 :
    Parse googlebotInput =
      { VersionNo := [2, 1], OSVersionNo := [], URL := "http://www.google.com/bot.html", String := googlebotInput, Name := "Googlebot", Version := "2.1", OS := "", OSVersion := "", Device := "", Mobile := false, Tablet := false, Desktop := false, Bot := true } := by
  decide

/-- C8: when the browser/bot switch leaves `Bot` false, the post-pass sets
it exactly when a URL was extracted or the final name is "Twitterbot" or
"facebookexternalhit". -/
theorem claimC8 (s : Str) (h : (preResult s).Bot = false) :
    (Parse s).Bot =
      ((preResult s).URL != "" ||
        ((preResult s).Name == Twitterbot || (preResult s).Name == FacebookExternalHit)) := by
  unfold Parse
  rw [fixMobileAndroid_eq, fixTabletMobile_eq, fixBotURL_eq, fixBotName_eq]
  simp [setVersions, h]

/-- Witness for C8: a concrete input whose agent stage leaves `Bot` false,
with no URL and a name outside the crawler list, so `Bot` stays false. -/
theorem claimC8_witness :
    (preResult "Foo/1.0").Bot = false ∧ (Parse "Foo/1.0").Bot = false := by
  have h := claimC8 "Foo/1.0" (by decide)
  exact ⟨by decide, h.trans (by decide)⟩

/-- C9: when the Android OS rule fires and the token after the "Android"
token has a device-like key (not a locale tag, not in the fixed non-device
vocabulary, not containing "tablet"), the classified `Device` is that key
with a trailing "Build" trimmed, and that token is removed from the store
handed to the browser/bot stage. -/
theorem claimC9 (t : List property) (ua : UserAgent) (k : Str)
    (hA : existsKey t "Android" = true)
    (hk : k = (t.getD ((getIndexValue t Android).1 + 1).toNat ⟨"", ""⟩).Key)
    (hlen : (getIndexValue t Android).1 + 1 < (t.length : Int))
    (hloc : ¬(k.data.length = 2 ∨ (k.data.length = 5 ∧ k.data.getD 2 ' ' = '-')))
    (hskip : k ∉ devSkip)
    (htab : containsL (toLowerL k.data) "tablet".data = false) :
    (osStep t ua).1.Device = String.mk (trimSpaceL (trimSfxL k.data "Build".data)) ∧
    (osStep t ua).2 = t.eraseIdx ((getIndexValue t Android).1 + 1).toNat := by
  subst hk
  unfold osStep findAndroidDevice
  simp only [hA, hlen, hloc, hskip, htab, eq_self_iff_true, Bool.false_eq_true,
    if_true, if_false]
  exact ⟨trivial, trivial⟩

/-- Witness for C9: the `androidTokens` store, where the device "SM-G960F"
is extracted and its token removed. -/
theorem claimC9_witness :
    (osStep androidTokens emptyUA).1.Device = "SM-G960F" ∧
    (osStep androidTokens emptyUA).2 = [⟨"Android", "8.0.0"⟩] := by
  have h := claimC9 androidTokens emptyUA "SM-G960F Build" (by decide) (by decide) (by decide) (by decide) (by decide) (by decide)
  exact ⟨h.1.trans (by decide), h.2.trans (by decide)⟩

/-- C10: whenever the Applebot rule fires, the returned record has `OS`
empty but `OSVersion` exactly as the OS-lookup stage assigned it — the
exception clears only the OS name, not the OS version. -/
theorem claimC10 (s : Str) (h : applebotBranch (osResult s).2 = true) :
    (Parse s).OS = "" ∧ (Parse s).OSVersion = (osResult s).1.OSVersion := by
  constructor
  · unfold Parse preResult
    rw [fixMobileAndroid_eq, fixTabletMobile_eq, fixBotURL_eq, fixBotName_eq]
    simp only [setVersions]
    simp [agentStep_OS, h]
  · unfold Parse preResult
    rw [fixMobileAndroid_eq, fixTabletMobile_eq, fixBotURL_eq, fixBotName_eq]
    simp only [setVersions]
    simp [agentStep_OSVersion]

/-- Witness for C10: a Macintosh+Applebot input where the OS stage assigns
`OSVersion = "10.15.7"`, which survives while `OS` is cleared. -/
theorem claimC10_witness :
    applebotBranch (osResult applebotInput).2 = true ∧
    (Parse applebotInput).OS = "" ∧ (Parse applebotInput).OSVersion = "10.15.7" := by
  have h := claimC10 applebotInput (by decide)
  exact ⟨by decide, h.1, h.2.trans (by decide)⟩

end useragent
